import Mathlib

/-!
Shallow embedding of the P2000T mini-cassette subsystem
(src/src/mame/machine/p2000t.cpp): the `MiniCas` tape-drive state machine,
the periodic clock callback `rdc_1`, the status-port read handler
`p2000t_port_202f_r` and the control-port write handler `p2000t_port_101f_w`.

The C++ `MiniCas` holds a `std::vector<uint8_t> data` of 4*1024*8 elements
(one bit stored per byte), a `uint32_t pos` starting at 512, and a direction
`enum { Stop, Rev }`.  All position arithmetic is guarded so the `uint32_t`
never wraps, hence `Nat` is a faithful carrier for `pos`; the storage bytes
are modelled as `Nat` (only 0/1 are ever stored by `write`).
-/

/-- Embeds `enum Direction { Stop, Rev }` of `MiniCas`. -/
inductive Direction where
  | Stop : Direction
  | Rev : Direction
deriving DecidableEq, Repr

/-- Embeds `struct MiniCas`: direction, bit storage (vector of uint8 holding
0/1 per bit cell) and head position. The capacity is `data.length`. -/
structure MiniCas where
  dir : Direction
  data : List Nat
  pos : Nat
deriving DecidableEq, Repr

/-- `data.size()` of the C++ vector: the tape capacity. -/
def MiniCas.size (m : MiniCas) : Nat := m.data.length

/-- Embeds `bool valid() { return pos > 0 && pos < data.size(); }`. -/
def MiniCas.valid (m : MiniCas) : Bool := 0 < m.pos && m.pos < m.size

/-- Embeds `void fwd()`: `dir = Stop; if (pos < data.size()) pos++;`. -/
def MiniCas.fwd (m : MiniCas) : MiniCas :=
  let m1 : MiniCas := { m with dir := Direction.Stop }
  if m1.pos < m1.size then { m1 with pos := m1.pos + 1 } else m1

/-- Embeds `void rev() { dir = Direction::Rev; }` (the stream output has no
state effect). -/
def MiniCas.rev (m : MiniCas) : MiniCas := { m with dir := Direction.Rev }

/-- Embeds `void move() { if (dir == Direction::Rev && pos > 0) pos--; }`. -/
def MiniCas.move (m : MiniCas) : MiniCas :=
  if m.dir = Direction.Rev && 0 < m.pos then { m with pos := m.pos - 1 } else m

/-- Embeds `void stop()`: `dir = Stop; if (pos == 0) pos = 1; if (pos ==
data.size()) pos = data.size() - 1;` (the two clamps run in sequence). -/
def MiniCas.stop (m : MiniCas) : MiniCas :=
  let m1 : MiniCas := { m with dir := Direction.Stop }
  let m2 : MiniCas := if m1.pos = 0 then { m1 with pos := 1 } else m1
  if m2.pos = m2.size then { m2 with pos := m2.size - 1 } else m2

/-- Embeds `void write(bool bit) { if (valid()) data[pos - 1] = bit; }`
(the bool is stored as a uint8, i.e. 1 or 0). -/
def MiniCas.write (m : MiniCas) (bit : Bool) : MiniCas :=
  if m.valid then
    { m with data := m.data.set (m.pos - 1) (if bit then 1 else 0) }
  else m

/-- Embeds `bool read() { return valid() && data[pos - 1] == 1; }`. -/
def MiniCas.read (m : MiniCas) : Bool :=
  m.valid && (m.data.getD (m.pos - 1) 0 == 1)

/-- The constructed drive: `data.resize(4 * 1024 * 8)` (value-initialised to
zero), `pos = 512`, `dir = Stop`. -/
def MiniCas.init : MiniCas :=
  { dir := Direction.Stop, data := List.replicate (4 * 1024 * 8) 0, pos := 512 }

/-- The machine state the cassette port handlers touch: the static `cas`
drive, the clock flip-flop `m_rdc_1` and the control-port shadow
`m_port_101f`. -/
structure P2000State where
  cas : MiniCas
  m_rdc_1 : Bool
  m_port_101f : Nat
deriving DecidableEq, Repr

/-- Embeds the timer callback `rdc_1`: `m_rdc_1 = !m_rdc_1; cas.move();`. -/
def P2000State.rdc_1 (s : P2000State) : P2000State :=
  { s with m_rdc_1 := !s.m_rdc_1, cas := s.cas.move }

/-- Value contributed by setting bit `k` of a `std::bitset<8>` to `b`. -/
def bitVal (b : Bool) (k : Nat) : Nat := if b then 2 ^ k else 0

/-- Embeds `uint8_t p2000t_port_202f_r()`: assemble the bitset (bits 3 and 4
constant 1, bit 5 `!cas.valid()`, bit 6 `m_rdc_1`, bit 7 `cas.read()`), then
return `(~state.to_ulong()) & 0xFF`, which for a value below 256 is
`255 - value`. The handler mutates nothing, so it returns the byte together
with the unchanged state. -/
def P2000State.port_202f_r (s : P2000State) : Nat × P2000State :=
  let state : Nat :=
    bitVal true 3 + bitVal true 4 + bitVal (!s.cas.valid) 5 +
      bitVal s.m_rdc_1 6 + bitVal s.cas.read 7
  let status : Nat := (2 ^ 8 - 1) - state % 2 ^ 8
  (status, s)

/-- Embeds `void p2000t_port_101f_w(uint8_t data)`: store the byte in
`m_port_101f`, then, reading bits of the byte: bit 1 set gates a
`cas.write` of bit 0; bit 2 set issues `cas.rev()`; bit 3 set issues
`cas.fwd()`; bits 2 and 3 both clear issue `cas.stop()`. -/
def P2000State.port_101f_w (s : P2000State) (d : Nat) : P2000State :=
  let b : Nat := d % 2 ^ 8
  let s1 : P2000State := { s with m_port_101f := b }
  let s2 : P2000State :=
    if b.testBit 1 then { s1 with cas := s1.cas.write (b.testBit 0) } else s1
  let s3 : P2000State :=
    if b.testBit 2 then { s2 with cas := s2.cas.rev } else s2
  let s4 : P2000State :=
    if b.testBit 3 then { s3 with cas := s3.cas.fwd } else s3
  if !b.testBit 2 && !b.testBit 3 then { s4 with cas := s4.cas.stop } else s4

/-- The status byte as the spec describes it, assembled from positive-sense
fields: bit 3 (write-enable) constant 1, bit 4 (in-position) constant 1,
bit 5 the negation of `valid()`, bit 6 the clock-phase level, bit 7 the
`read_bit()` result. -/
def statusSpecByte (s : P2000State) : Nat :=
  8 + 16 + (if s.cas.valid then 0 else 32) + (if s.m_rdc_1 then 64 else 0) +
    (if s.cas.read then 128 else 0)

/-- Operations a C2 scenario may perform: `command_reverse` and `tick`. -/
inductive CasOp where
  | reverse : CasOp
  | tick : CasOp
deriving DecidableEq, Repr

/-- `command_reverse` maps to `MiniCas.rev`; the tape effect of a tick is
`MiniCas.move` (the timer callback also flips the clock flip-flop, which
does not touch the drive). -/
def applyOp (m : MiniCas) : CasOp → MiniCas
  | CasOp.reverse => m.rev
  | CasOp.tick => m.move

/-- Run a sequence of reverse/tick operations from a starting drive state. -/
def runOps (m : MiniCas) : List CasOp → MiniCas
  | [] => m
  | op :: ops => runOps (applyOp m op) ops

theorem applyOp_data (m : MiniCas) (op : CasOp) : (applyOp m op).data = m.data := by
  cases op
  · rfl
  · simp only [applyOp, MiniCas.move]
    split <;> rfl

theorem applyOp_pos_le (m : MiniCas) (op : CasOp) : (applyOp m op).pos ≤ m.pos := by
  cases op
  · exact Nat.le_refl _
  · simp only [applyOp, MiniCas.move]
    split
    · exact Nat.sub_le _ _
    · exact Nat.le_refl _

theorem runOps_data (ops : List CasOp) (m : MiniCas) :
    (runOps m ops).data = m.data := by
  induction ops generalizing m with
  | nil => rfl
  | cons op ops ih => rw [runOps, ih, applyOp_data]

theorem runOps_pos_le (ops : List CasOp) (m : MiniCas) :
    (runOps m ops).pos ≤ m.pos := by
  induction ops generalizing m with
  | nil => exact Nat.le_refl _
  | cons op ops ih =>
      exact Nat.le_trans (ih (applyOp m op)) (applyOp_pos_le m op)

theorem MiniCas.stop_data (m : MiniCas) : m.stop.data = m.data := by
  simp only [MiniCas.stop]
  split <;> split <;> rfl

theorem MiniCas.write_data_of_valid (m : MiniCas) (b : Bool) (h : m.valid = true) :
    (m.write b).data = m.data.set (m.pos - 1) (if b then 1 else 0) := by
  simp [MiniCas.write, h]

theorem getD_set_self (l : List Nat) (n a : Nat) (h : n < l.length) :
    (l.set n a).getD n 0 = a := by
  rw [List.getD_eq_getElem _ _ (by simpa using h)]
  simp [List.getElem_set_self]

/-- C1: for every drive and clock state, reading the status port returns the
bitwise complement, masked to 8 bits, of the byte assembled from the
positive-sense fields (bit 3 and bit 4 constant 1, bit 5 the negation of
`valid()`, bit 6 the clock-phase level, bit 7 the `read_bit()` result). -/
theorem status_read_is_complement_of_spec_byte (s : P2000State) :
    (s.port_202f_r).1 = Nat.xor (statusSpecByte s) 255 := by
  cases hv : s.cas.valid <;> cases hc : s.m_rdc_1 <;> cases hr : s.cas.read <;>
    simp only [P2000State.port_202f_r, statusSpecByte, bitVal, hv, hc, hr,
      Bool.not_false, Bool.not_true, if_true, if_false] <;> decide

/-- C10: reading the status port leaves the entire machine state (tape
position, direction, storage contents and clock-phase level) unchanged. -/
theorem status_read_preserves_state (s : P2000State) : (s.port_202f_r).2 = s := rfl

/-- C3: after `command_forward` (`MiniCas.fwd`) the direction is Stopped, and
the position is incremented by exactly one when the starting position was
strictly below the capacity, otherwise unchanged. -/
theorem command_forward_stops_and_steps (m : MiniCas) :
    m.fwd.dir = Direction.Stop ∧
      m.fwd.pos = if m.pos < m.size then m.pos + 1 else m.pos := by
  constructor
  · simp only [MiniCas.fwd]
    split <;> rfl
  · simp only [MiniCas.fwd, MiniCas.size]
    split <;> rfl

/-- Concrete drive state used to refute the C4 claim as stated. -/
def casC4 : MiniCas := { dir := Direction.Stop, data := [0, 0, 0, 0], pos := 2 }

/-- C4 counterexample: from the state `casC4` (position 2, capacity 4),
`command_reverse` followed immediately by `command_forward` does NOT leave the
position unchanged: it moves from 2 to 3. -/
theorem reverse_then_forward_counterexample : casC4.rev.fwd.pos ≠ casC4.pos := by
  decide

/-- C4 amended: `command_reverse` followed immediately by `command_forward`
with no ticks in between leaves the direction Stopped and increments the
position by exactly one when the starting position was strictly below the
capacity, otherwise leaves it unchanged. -/
theorem reverse_then_forward_steps (m : MiniCas) :
    m.rev.fwd.dir = Direction.Stop ∧
      m.rev.fwd.pos = if m.pos < m.size then m.pos + 1 else m.pos := by
  constructor
  · simp only [MiniCas.rev, MiniCas.fwd]
    split <;> rfl
  · simp only [MiniCas.rev, MiniCas.fwd, MiniCas.size]
    split <;> rfl

/-- C9: the clock-phase level after `n` timer ticks equals the initial level
when `n` is even and its negation when `n` is odd. -/
theorem clock_phase_parity (s : P2000State) (n : Nat) :
    (P2000State.rdc_1^[n] s).m_rdc_1 =
      if n % 2 = 0 then s.m_rdc_1 else !s.m_rdc_1 := by
  induction n with
  | zero => simp
  | succ k ih =>
      rw [Function.iterate_succ_apply']
      have hstep : (P2000State.rdc_1 (P2000State.rdc_1^[k] s)).m_rdc_1 =
          !(P2000State.rdc_1^[k] s).m_rdc_1 := rfl
      rw [hstep, ih]
      rcases Nat.mod_two_eq_zero_or_one k with hk | hk
      · have h1 : (k + 1) % 2 = 1 := by omega
        simp [hk, h1]
      · have h1 : (k + 1) % 2 = 0 := by omega
        simp [hk, h1]

/-- C2: for every capacity (the length of `l`), starting position in
`[0, capacity]` and sequence of `command_reverse`/`tick` operations, the
position never goes below 0 (and in fact stays within `[0, capacity]`), and
`valid()` is false exactly when the position is 0 or the capacity. -/
theorem reverse_tick_safety (d : Direction) (l : List Nat) (p : Nat)
    (ops : List CasOp) (h : p ≤ l.length) :
    0 ≤ (runOps ⟨d, l, p⟩ ops).pos ∧ (runOps ⟨d, l, p⟩ ops).pos ≤ l.length ∧
      ((runOps ⟨d, l, p⟩ ops).valid = false ↔
        (runOps ⟨d, l, p⟩ ops).pos = 0 ∨ (runOps ⟨d, l, p⟩ ops).pos = l.length) := by
  have hd : (runOps ⟨d, l, p⟩ ops).data = l := runOps_data ops ⟨d, l, p⟩
  have hp : (runOps ⟨d, l, p⟩ ops).pos ≤ p := runOps_pos_le ops ⟨d, l, p⟩
  have hple : (runOps ⟨d, l, p⟩ ops).pos ≤ l.length := Nat.le_trans hp h
  refine ⟨Nat.zero_le _, hple, ?_⟩
  simp only [MiniCas.valid, MiniCas.size, hd, Bool.and_eq_false_iff,
    decide_eq_false_iff_not, Nat.not_lt]
  omega

/-- Witness for C2 at a concrete scenario: capacity 4, start position 2,
reverse then three ticks. -/
theorem reverse_tick_safety_witness :
    2 ≤ ([0, 0, 0, 0] : List Nat).length ∧
      (0 ≤ (runOps ⟨Direction.Stop, [0, 0, 0, 0], 2⟩
            [CasOp.reverse, CasOp.tick, CasOp.tick, CasOp.tick]).pos ∧
        (runOps ⟨Direction.Stop, [0, 0, 0, 0], 2⟩
            [CasOp.reverse, CasOp.tick, CasOp.tick, CasOp.tick]).pos ≤
          ([0, 0, 0, 0] : List Nat).length ∧
        ((runOps ⟨Direction.Stop, [0, 0, 0, 0], 2⟩
              [CasOp.reverse, CasOp.tick, CasOp.tick, CasOp.tick]).valid = false ↔
          (runOps ⟨Direction.Stop, [0, 0, 0, 0], 2⟩
              [CasOp.reverse, CasOp.tick, CasOp.tick, CasOp.tick]).pos = 0 ∨
          (runOps ⟨Direction.Stop, [0, 0, 0, 0], 2⟩
              [CasOp.reverse, CasOp.tick, CasOp.tick, CasOp.tick]).pos =
            ([0, 0, 0, 0] : List Nat).length)) :=
  ⟨by decide, reverse_tick_safety Direction.Stop [0, 0, 0, 0] 2
    [CasOp.reverse, CasOp.tick, CasOp.tick, CasOp.tick] (by decide)⟩

theorem MiniCas.stop_eq (m : MiniCas) :
    m.stop = { m with
      dir := Direction.Stop
      pos := (if (if m.pos = 0 then 1 else m.pos) = m.data.length
        then m.data.length - 1 else (if m.pos = 0 then 1 else m.pos)) } := by
  by_cases h0 : m.pos = 0 <;>
    by_cases hL : (if m.pos = 0 then 1 else m.pos) = m.data.length <;>
      simp_all [MiniCas.stop, MiniCas.size]

/-- C5: for every drive state of the program (capacity `4 * 1024 * 8`),
`command_stop` sets the direction to Stopped and clamps the position
(0 becomes 1, capacity becomes capacity - 1, anything else unchanged);
consequently `valid()` holds afterwards whenever the starting position was
in `[0, capacity]`. -/
theorem command_stop_clamps (m : MiniCas) (h : m.data.length = 4 * 1024 * 8) :
    m.stop.dir = Direction.Stop ∧
      m.stop.pos = (if m.pos = 0 then 1
        else if m.pos = m.data.length then m.data.length - 1 else m.pos) ∧
      (m.pos ≤ m.data.length → m.stop.valid = true) := by
  refine ⟨?_, ?_, ?_⟩
  · rw [MiniCas.stop_eq]
  · simp only [MiniCas.stop_eq]
    rw [h]
    split_ifs <;> omega
  · intro hle
    rw [h] at hle
    simp only [MiniCas.stop_eq, MiniCas.valid, MiniCas.size, Bool.and_eq_true,
      decide_eq_true_eq]
    rw [h]
    split_ifs <;> omega

/-- Witness for C5 at the constructed drive (position 512, capacity 32768). -/
theorem command_stop_clamps_witness :
    MiniCas.init.data.length = 4 * 1024 * 8 ∧
      (MiniCas.init.stop.dir = Direction.Stop ∧
        MiniCas.init.stop.pos = (if MiniCas.init.pos = 0 then 1
          else if MiniCas.init.pos = MiniCas.init.data.length
            then MiniCas.init.data.length - 1 else MiniCas.init.pos) ∧
        (MiniCas.init.pos ≤ MiniCas.init.data.length →
          MiniCas.init.stop.valid = true)) :=
  ⟨by simp only [MiniCas.init, List.length_replicate],
    command_stop_clamps MiniCas.init
      (by simp only [MiniCas.init, List.length_replicate])⟩

/-- C6: at a valid head position, writing control byte `0b00000011`
(write-command and write-data set) stores 1 in the tape cell under the head,
and writing `0b00000010` (write-command set, write-data clear) stores 0: the
write-command bit gates the write-data bit onto the tape. -/
theorem control_write_gates_data_bit (s : P2000State) (h : s.cas.valid = true) :
    (s.port_101f_w 3).cas.data.getD (s.cas.pos - 1) 0 = 1 ∧
      (s.port_101f_w 2).cas.data.getD (s.cas.pos - 1) 0 = 0 := by
  have h2 := h
  simp only [MiniCas.valid, MiniCas.size, Bool.and_eq_true, decide_eq_true_eq] at h2
  have hlt : s.cas.pos - 1 < s.cas.data.length := by omega
  have e3 : (s.port_101f_w 3).cas = (s.cas.write true).stop := rfl
  have e2 : (s.port_101f_w 2).cas = (s.cas.write false).stop := rfl
  rw [e3, e2, MiniCas.stop_data, MiniCas.stop_data,
    MiniCas.write_data_of_valid _ _ h, MiniCas.write_data_of_valid _ _ h]
  constructor
  · simpa using getD_set_self s.cas.data (s.cas.pos - 1) 1 hlt
  · simpa using getD_set_self s.cas.data (s.cas.pos - 1) 0 hlt

/-- Concrete machine state used to witness C6. -/
def sC6 : P2000State :=
  { cas := { dir := Direction.Stop, data := [5, 7], pos := 1 },
    m_rdc_1 := false, m_port_101f := 0 }

/-- Witness for C6 at a concrete valid state. -/
theorem control_write_gates_data_bit_witness :
    sC6.cas.valid = true ∧
      ((sC6.port_101f_w 3).cas.data.getD (sC6.cas.pos - 1) 0 = 1 ∧
        (sC6.port_101f_w 2).cas.data.getD (sC6.cas.pos - 1) 0 = 0) :=
  ⟨by decide, control_write_gates_data_bit sC6 (by decide)⟩

/-- C7: at a valid head position, `write_bit b` followed by `read_bit` with
no position change in between returns `b`. -/
theorem write_then_read_roundtrip (m : MiniCas) (b : Bool) (h : m.valid = true) :
    (m.write b).read = b := by
  have h2 := h
  simp only [MiniCas.valid, MiniCas.size, Bool.and_eq_true, decide_eq_true_eq] at h2
  have hlt : m.pos - 1 < m.data.length := by omega
  have e : m.write b = { m with data := m.data.set (m.pos - 1) (if b then 1 else 0) } := by
    simp [MiniCas.write, h]
  rw [e]
  simp only [MiniCas.read, MiniCas.valid, MiniCas.size, List.length_set,
    getD_set_self _ _ _ hlt]
  simp only [MiniCas.valid, MiniCas.size] at h
  rw [h]
  cases b <;> simp

/-- Concrete drive state used to witness C7. -/
def mC7 : MiniCas := { dir := Direction.Stop, data := [0, 0, 0], pos := 2 }

/-- Witness for C7 at a concrete valid state and bit value true. -/
theorem write_then_read_roundtrip_witness :
    mC7.valid = true ∧ (mC7.write true).read = true :=
  ⟨by decide, write_then_read_roundtrip mC7 true (by decide)⟩

/-- C8: when the head position is 0 or the capacity, `read_bit` returns
false and `write_bit b` leaves the storage contents unchanged, for every
bit `b`; both operations are total, no error is raised. -/
theorem invalid_position_absorbs (m : MiniCas) (b : Bool)
    (h : m.pos = 0 ∨ m.pos = m.data.length) :
    m.read = false ∧ (m.write b).data = m.data := by
  have hv : m.valid = false := by
    simp only [MiniCas.valid, MiniCas.size]
    rcases h with h | h <;> simp [h]
  constructor
  · simp [MiniCas.read, hv]
  · simp [MiniCas.write, hv]

/-- Concrete drive state used to witness C8. -/
def mC8 : MiniCas := { dir := Direction.Stop, data := [3, 1], pos := 0 }

/-- Witness for C8 at a concrete boundary state (position 0). -/
theorem invalid_position_absorbs_witness :
    (mC8.pos = 0 ∨ mC8.pos = mC8.data.length) ∧
      (mC8.read = false ∧ (mC8.write true).data = mC8.data) :=
  ⟨by decide, invalid_position_absorbs mC8 true (by decide)⟩
